import Mathlib

/-!
Shallow embedding of `src/Zion/Zion/mm/pmap.c`: the physical page-frame
registry with its free list, the two-level page-table walker/editor, and
the kernel-space mapping facade.

Modelling conventions:
* machine words are `Nat` (all values handled stay below `2 ^ 32`);
* a `struct Page *` is the index of the frame in the `pages` array
  (`pp_next` is `Option Nat`, `NULL` being `none`);
* the contents of physical frames (page directories and page tables hold
  1024 32-bit entries each) are `MemState.mem : frame → index → word`;
  `Page::data()` of frame `f` is row `f` of that map, `Page::physaddr()`
  is `f * PGSIZE`, and `KADDR`/`PADDR` add/subtract the constant
  `KERNBASE`, so a kernel-virtual pointer to a table and the table's
  frame index determine each other;
* `tlb` is the log of linear addresses passed to `invlpg`;
* a fatal assertion or panic is `none`.
-/

namespace Pmap

/-- Page size in bytes (`PGSIZE`). -/
def PGSIZE : Nat := 4096

/-- Page-table entry present bit (`PTE_P`). -/
def PTE_P : Nat := 1

/-- Page-table entry writable bit (`PTE_W`). -/
def PTE_W : Nat := 2

/-- Page-table entry user bit (`PTE_U`). -/
def PTE_U : Nat := 4

/-- `IOPHYSMEM = 0xA0000`, start of the low I/O hole. -/
def IOPHYSMEM : Nat := 0xA0000

/-- `EXTPHYSMEM = 0x100000`, end of the low I/O hole. -/
def EXTPHYSMEM : Nat := 0x100000

/-- `PDX(la) = (la >> 22) & 0x3FF`: page-directory index. -/
def PDX (va : Nat) : Nat := va / 4194304 % 1024

/-- `PTX(la) = (la >> 12) & 0x3FF`: page-table index. -/
def PTX (va : Nat) : Nat := va / 4096 % 1024

/-- `PTE_ADDR(pte)` clears the low 12 permission bits of an entry. -/
def PTE_ADDR (pte : Nat) : Nat := pte / 4096 * 4096

/-- Modelled from the spec: the out-of-memory error code `E_NO_MEM`
(`include/error.h` is not under `src/`); `page_insert` and `page_map`
return `-E_NO_MEM` on allocation failure. -/
def E_NO_MEM : Int := 4

/-- Modelled from the spec: `round_up(a, n)` rounds `a` up to a multiple
of `n` (the helper macro's header is not under `src/`; `boot_alloc` and
`page_map_segment` use it at page granularity). -/
def round_up (a n : Nat) : Nat := (a + n - 1) / n * n

/-- One entry of the `pages` array: `struct Page` with its reference
count `pp_ref` and free-list link `pp_next`. -/
structure Page where
  pp_ref : Nat
  pp_next : Option Nat
deriving DecidableEq

/-- The mutable state touched by the `page_*` functions: the `pages`
array, the `free_pages` list head, the contents of physical memory
(page directories / page tables), and the log of `invlpg`ed addresses. -/
structure MemState where
  pages : Nat → Page
  free_pages : Option Nat
  mem : Nat → Nat → Nat
  tlb : List Nat

/-- The all-zero state: `pages` as left by `memset(pages, 0, ...)` in
`mem_init`, empty free list, zeroed memory, no invalidations logged. -/
def zeroMemState : MemState :=
  { pages := fun _ => ⟨0, none⟩, free_pages := none, mem := fun _ _ => 0, tlb := [] }

/-- Write one 32-bit entry of one frame (`*pte = v`-style stores). -/
def setMemS (s : MemState) (f i v : Nat) : MemState :=
  { s with mem := fun f' i' => if f' = f ∧ i' = i then v else s.mem f' i' }

/-- Fill a whole frame with one word value (`memset(p->data(), c, PGSIZE)`:
byte fill `0xCC` is word `0xCCCCCCCC`, byte fill `0` is word `0`). -/
def fillMemS (s : MemState) (f v : Nat) : MemState :=
  { s with mem := fun f' i' => if f' = f then v else s.mem f' i' }

/-- Write `pages[f].pp_ref`. -/
def setRefS (s : MemState) (f r : Nat) : MemState :=
  { s with pages := fun j => if j = f then ⟨r, (s.pages f).pp_next⟩ else s.pages j }

/-- Write `pages[f].pp_next`. -/
def setNextS (s : MemState) (f : Nat) (nx : Option Nat) : MemState :=
  { s with pages := fun j => if j = f then ⟨(s.pages f).pp_ref, nx⟩ else s.pages j }

/-- `pp->pp_ref++`. -/
def increfS (s : MemState) (f : Nat) : MemState :=
  setRefS s f ((s.pages f).pp_ref + 1)

/-- `i386_mem_detect`: the two CMOS readings are kilobyte counts; the
result is `(npages, n_base_pages)`.  `cprintf` output is ignored. -/
def i386_mem_detect (baseKB extKB : Nat) : Nat × Nat :=
  let n_base_pages := baseKB * 1024 / PGSIZE
  let n_extended_pages := extKB * 1024 / PGSIZE
  (if n_extended_pages ≠ 0 then EXTPHYSMEM / PGSIZE + n_extended_pages else n_base_pages,
   n_base_pages)

/-- `page_alloc`: pop the free-list head, fill its data with `0xCC`,
return it with `pp_ref` (and `pp_next`) untouched; `none` if the list is
empty. -/
def page_alloc (s : MemState) : Option (Nat × MemState) :=
  match s.free_pages with
  | none => none
  | some f =>
      some (f, { fillMemS s f 0xCCCCCCCC with free_pages := (s.pages f).pp_next })

/-- `page_free`: `assert(pp->pp_ref == 0)` (fatal, modelled as `none`),
fill the data with `0xCC`, push onto the free list. -/
def page_free (s : MemState) (pp : Nat) : Option MemState :=
  if (s.pages pp).pp_ref = 0 then
    some (let s1 := fillMemS s pp 0xCCCCCCCC
          { setNextS s1 pp s1.free_pages with free_pages := some pp })
  else none

/-- `page_decref`: `if (--pp->pp_ref == 0) page_free(pp);`.  When the
freeing branch runs, `pp_ref` was just written to `0`, so the assert in
`page_free` always passes; the `getD` default branch is unreachable.
(`pp_ref` is an unsigned C integer; decrement of a live mapping's frame,
the only use in this file, never underflows.) -/
def page_decref (s : MemState) (pp : Nat) : MemState :=
  let s1 := setRefS s pp ((s.pages pp).pp_ref - 1)
  if (s1.pages pp).pp_ref = 0 then (page_free s1 pp).getD s1 else s1

/-- `pgdir_walk(pgdir, va, create)`: returns the location
`(table frame, PTX va)` of the PTE governing `va`, or `none`.  The C
tests `if (!*pgdir)` — the whole PDE against zero, not `PTE_P`.  On
creation the new table frame is `page_alloc`ed, its `pp_ref`
incremented, its data zeroed, and the PDE set to
`physaddr | PTE_U | PTE_W | PTE_P`. -/
def pgdir_walk (s : MemState) (pgdir va : Nat) (create : Bool) :
    Option (Nat × Nat) × MemState :=
  let pde := s.mem pgdir (PDX va)
  if pde = 0 then
    if !create then (none, s)
    else
      match page_alloc s with
      | none => (none, s)
      | some (pt, s1) =>
          let s2 := increfS s1 pt
          let s3 := fillMemS s2 pt 0
          let s4 := setMemS s3 pgdir (PDX va) (pt * PGSIZE ||| PTE_U ||| PTE_W ||| PTE_P)
          (some (PTE_ADDR (s4.mem pgdir (PDX va)) / PGSIZE, PTX va), s4)
  else (some (PTE_ADDR pde / PGSIZE, PTX va), s)

/-- `page_lookup(pgdir, va, pte_store)`: result is
`(page or none, value stored through pte_store)`.  The C only returns a
page inside the `if (pte_store)` branch; with a null `pte_store` it
falls through to `return NULL` even when a page is mapped. -/
def page_lookup (s : MemState) (pgdir va : Nat) (pte_store : Bool) :
    Option Nat × Option (Nat × Nat) :=
  match (pgdir_walk s pgdir va false).1 with
  | none => (none, none)
  | some pte =>
      if pte_store then
        if s.mem pte.1 pte.2 = 0 then (none, some pte)
        else (some (PTE_ADDR (s.mem pte.1 pte.2) / PGSIZE), some pte)
      else (none, none)

/-- `tlb_invalidate`: always `invlpg(va)` (single address space). -/
def tlb_invalidate (s : MemState) (_pgdir va : Nat) : MemState :=
  { s with tlb := va :: s.tlb }

/-- `page_remove(pgdir, va)`: look the page up (with a `pte_store`),
and if one is mapped `page_decref` it, zero the PTE, and invalidate. -/
def page_remove (s : MemState) (pgdir va : Nat) : MemState :=
  match page_lookup s pgdir va true with
  | (some pp, pteo) =>
      let s1 := page_decref s pp
      let s2 := match pteo with
                | some pte => setMemS s1 pte.1 pte.2 0
                | none => s1
      tlb_invalidate s2 pgdir va
  | (none, _) => s

/-- `page_insert(pgdir, pp, va, perm)`.

The C walks without `create`; if a PTE location exists and holds a
different physical address than `pp`, it `page_remove`s any old mapping
(only when `PTE_ADDR(*pte) != 0`) and increments `pp->pp_ref`; if it
holds the same address, nothing but the final permission write happens.
If no table exists, it walks with `create`, then overwrites the PDE with
`PADDR((pte_t *)((physaddr_t)PTE_ADDR(pte) | perm | PTE_P))`: `pte` is
the kernel-virtual pointer to the new PTE, so `PTE_ADDR(pte)` is the
table's `KERNBASE`-offset base and the stored PDE is
`table physaddr | perm | PTE_P` (permission bits stay below `PGSIZE`,
so the or does not disturb the address bits).  In every branch the final
statement rewrites the PTE, located through the current PDE, to
`pp->physaddr() | perm | PTE_P`.  Returns `-E_NO_MEM` (here `none`)
only when the create-walk fails. -/
def page_insert (s : MemState) (pgdir pp va perm : Nat) : Option MemState :=
  match (pgdir_walk s pgdir va false).1 with
  | some pte =>
      if PTE_ADDR (s.mem pte.1 pte.2) ≠ pp * PGSIZE then
        let s1 := if PTE_ADDR (s.mem pte.1 pte.2) ≠ 0 then page_remove s pgdir va else s
        let s2 := increfS s1 pp
        some (setMemS s2 (PTE_ADDR (s2.mem pgdir (PDX va)) / PGSIZE) (PTX va)
                (pp * PGSIZE ||| perm ||| PTE_P))
      else
        some (setMemS s (PTE_ADDR (s.mem pgdir (PDX va)) / PGSIZE) (PTX va)
                (pp * PGSIZE ||| perm ||| PTE_P))
  | none =>
      match pgdir_walk s pgdir va true with
      | (none, _) => none
      | (some pte, s1) =>
          let s2 := setMemS s1 pgdir (PDX va) (pte.1 * PGSIZE ||| perm ||| PTE_P)
          let s3 := increfS s2 pp
          some (setMemS s3 (PTE_ADDR (s3.mem pgdir (PDX va)) / PGSIZE) (PTX va)
                  (pp * PGSIZE ||| perm ||| PTE_P))

/-- `page_map(va, perm)`: allocate a frame, zero it, insert it into the
kernel directory.  The C discards `page_insert`'s return value and
returns `0` even when the insertion failed with `-E_NO_MEM`. -/
def page_map (s : MemState) (kern_pgdir va perm : Nat) : Int × MemState :=
  match page_alloc s with
  | none => (-E_NO_MEM, s)
  | some (pp, s1) =>
      let s2 := fillMemS s1 pp 0
      match page_insert s2 kern_pgdir pp va perm with
      | some s3 => (0, s3)
      | none => (0, s2)

/-- `page_unmap(va)`: remove the mapping from the kernel directory. -/
def page_unmap (s : MemState) (kern_pgdir va : Nat) : MemState :=
  page_remove s kern_pgdir va

/-- The `for (i = 0; i < size; i += PGSIZE)` body of `page_map_segment`,
by remaining iteration count `n` and page offset index `k`:
`pte = pgdir_walk(pgdir, la + i, 1); assert(pte != NULL);
*pte = (pa + i) | perm | PTE_P;`. -/
def segLoop (pgdir la pa perm : Nat) : Nat → Nat → MemState → Option MemState
  | 0, _, s => some s
  | n + 1, k, s =>
      match pgdir_walk s pgdir (la + k * PGSIZE) true with
      | (none, _) => none
      | (some pte, s1) =>
          segLoop pgdir la pa perm n (k + 1)
            (setMemS s1 pte.1 pte.2 ((pa + k * PGSIZE) ||| perm ||| PTE_P))

/-- `page_map_segment(pgdir, la, size, pa, perm)`: the size is rounded
up to page granularity (`size = round_up(size, PGSIZE)` — no assertion
on it); `assert(0 == la % PGSIZE)` is fatal (`none`); then the loop
installs `size / PGSIZE` raw entries. -/
def page_map_segment (s : MemState) (pgdir la size pa perm : Nat) : Option MemState :=
  let size' := round_up size PGSIZE
  if la % PGSIZE = 0 then segLoop pgdir la pa perm (size' / PGSIZE) 0 s
  else none

/-- Run `f` at indices `start, start+1, ..., start+count-1` in order
(the shape of the three `for` loops of `page_init`). -/
def iterFrom (f : Nat → MemState → MemState) : Nat → Nat → MemState → MemState
  | _, 0, s => s
  | i, n + 1, s => iterFrom f (i + 1) n (f i s)

/-- First `page_init` loop body: `pages[i].pp_ref = 0;
pages[i].pp_next = free_pages; free_pages = &pages[i];`. -/
def pageInitPush (i : Nat) (s : MemState) : MemState :=
  let s1 := setRefS s i 0
  let s2 := setNextS s1 i s1.free_pages
  { s2 with free_pages := some i }

/-- Reservation loop body (I/O hole and extended-memory loops):
`pages[i + 1].pp_next = pages[i].pp_next; pages[i].pp_ref++;`. -/
def pageInitReserve (i : Nat) (s : MemState) : MemState :=
  let s1 := setNextS s (i + 1) ((s.pages i).pp_next)
  increfS s1 i

/-- `page_init()`.  `frontier` is `PADDR(boot_alloc(0)) / PGSIZE`, the
first frame past everything the boot bump allocator consumed (kernel
image plus the `pages` array itself). -/
def page_init (npages frontier : Nat) (s : MemState) : MemState :=
  let s0 := { s with free_pages := none }
  let s1 := iterFrom pageInitPush 1 (npages - 1) s0
  -- "First mark page 0 as in use."
  let s2 := setNextS s1 1 ((s1.pages 0).pp_next)
  let s3 := increfS s2 0
  -- "Then comes the IO hole [IOPHYSMEM, EXTPHYSMEM]."
  let s4 := iterFrom pageInitReserve (IOPHYSMEM / PGSIZE)
              (EXTPHYSMEM / PGSIZE - IOPHYSMEM / PGSIZE) s3
  -- "Then extended memory." — up to the boot_alloc frontier.
  iterFrom pageInitReserve (EXTPHYSMEM / PGSIZE) (frontier - EXTPHYSMEM / PGSIZE) s4

/-- `check_va2pa(pgdir, va)`: software translation used by
`alloc_free_page`; returns `~0` (`0xFFFFFFFF`) when not present. -/
def check_va2pa (s : MemState) (pgdir va : Nat) : Nat :=
  let pde := s.mem pgdir (PDX va)
  if pde &&& PTE_P = 0 then 0xFFFFFFFF
  else
    let p := s.mem (PTE_ADDR pde / PGSIZE) (PTX va)
    if p &&& PTE_P = 0 then 0xFFFFFFFF
    else PTE_ADDR p

/-- The inner predecessor search of `alloc_free_page`:
`while (pp1->pp_next != pp0) { if (pp1->pp_next == NULL) return NULL;
pp1 = pp1->pp_next; }`.  The C loop is unbounded; `fuel` only caps the
walk of a (in intended states finite, acyclic) free list. -/
def afp_findPrev (s : MemState) (pp0 : Nat) : Nat → Nat → Option Nat
  | 0, _ => none
  | fuel + 1, pp1 =>
      match (s.pages pp1).pp_next with
      | some nxt => if nxt = pp0 then some pp1 else afp_findPrev s pp0 fuel nxt
      | none => none

/-- `alloc_free_page()`.  `freeptr` is the function's `static char *`
cursor (first call: `boot_alloc(0)`), threaded explicitly; the caller
keeps the advanced value `result + PGSIZE`.  `pp1` is initialised to
`free_pages` once; iterations that reach the inner search always return,
so `pp1` is simply `free_pages` wherever it is read.  `fuel` bounds the
`while (freeptr <= 0xfffff000)` loop (in C it is bounded by the address
space) and the list walk; exhaustion, the out-of-space `panic`, and the
null-`pp1` dereference are all `none`.  In the `pp1 == pp0` branch the C
increments `pp0->pp_ref` and nulls `pp0->pp_next` but never advances
`free_pages`, and performs no `memset`; the other branch zeroes the page
and unlinks `pp0` via its predecessor. -/
def alloc_free_page (s : MemState) (kern_pgdir : Nat) : Nat → Nat → Option (Nat × MemState)
  | _, 0 => none
  | freeptr, fuel + 1 =>
      if freeptr ≤ 0xfffff000 then
        let pp0 := check_va2pa s kern_pgdir freeptr / PGSIZE
        match (s.pages pp0).pp_next with
        | none => alloc_free_page s kern_pgdir (freeptr + PGSIZE) fuel
        | some nxt =>
            match s.free_pages with
            | none => none
            | some pp1 =>
                if pp1 = pp0 then
                  some (freeptr, setNextS (increfS s pp0) pp0 none)
                else
                  match afp_findPrev s pp0 (fuel + 1) pp1 with
                  | none => none
                  | some pred =>
                      let s1 := fillMemS s pp0 0
                      let s2 := increfS s1 pp0
                      let s3 := setNextS s2 pred nxt
                      some (freeptr, setNextS s3 pp0 none)
      else none

/-- Walk the free list (head first) collecting frame indices; `fuel`
bounds the walk of the linked structure. -/
def freeChain (s : MemState) : Nat → Option Nat → List Nat
  | 0, _ => []
  | _ + 1, none => []
  | fuel + 1, some f => f :: freeChain s fuel (s.pages f).pp_next

/-- Frame `f` is reachable from the free-list head within `fuel` steps. -/
def onFreeList (s : MemState) (fuel f : Nat) : Prop :=
  f ∈ freeChain s fuel s.free_pages

instance (s : MemState) (fuel f : Nat) : Decidable (onFreeList s fuel f) := by
  unfold onFreeList; infer_instance

/-- `o.map` of the reference count of frame `f` (observation helper). -/
def optRef (o : Option MemState) (f : Nat) : Option Nat :=
  o.map fun s => (s.pages f).pp_ref

/-- `o.map` of the free-list head (observation helper). -/
def optFree (o : Option MemState) : Option (Option Nat) :=
  o.map MemState.free_pages

/-- `o.map` of one memory word (observation helper). -/
def optMem (o : Option MemState) (f i : Nat) : Option Nat :=
  o.map fun s => s.mem f i

/-- `o.map` of the invalidation log (observation helper). -/
def optTlb (o : Option MemState) : Option (List Nat) :=
  o.map MemState.tlb

/-- `o.map` of `page_lookup(pgdir, va, &pte)`'s page (observation helper). -/
def optLookup (o : Option MemState) (pgdir va : Nat) : Option (Option Nat) :=
  o.map fun s => (page_lookup s pgdir va true).1

/-- `o.map` of the page seen at `va` after a further `page_remove`
(observation helper). -/
def optLookupAfterRemove (o : Option MemState) (pgdir va : Nat) : Option (Option Nat) :=
  o.map fun s => (page_lookup (page_remove s pgdir va) pgdir va true).1

/-- The PDE governing `va` in directory frame `d`. -/
def pdeOf (s : MemState) (d va : Nat) : Nat := s.mem d (PDX va)

/-- The page-table frame governing `va` (meaningful when the PDE is
nonzero, mirroring `pgdir_walk`'s `KADDR(PTE_ADDR(*pgdir))`). -/
def tblOf (s : MemState) (d va : Nat) : Nat := PTE_ADDR (pdeOf s d va) / PGSIZE

/-- The PTE governing `va` (meaningful when the PDE is nonzero). -/
def pteOf (s : MemState) (d va : Nat) : Nat := s.mem (tblOf s d va) (PTX va)

/-- Structural well-formedness of a `page_insert` call, the conditions a
real kernel state satisfies: permission bits fit in the low 12 bits, the
inserted frame is not the directory frame, the governing page table (if
present) does not alias the directory entry being read, an old mapped
frame is neither the directory nor the governing table, and the
free-list head (used for table creation) is not the directory. -/
abbrev InsOK (s : MemState) (d pp va perm : Nat) : Prop :=
  perm < PGSIZE ∧ pp ≠ d ∧
  (pdeOf s d va ≠ 0 →
      ¬(tblOf s d va = d ∧ PDX va = PTX va) ∧
      (PTE_ADDR (pteOf s d va) ≠ 0 → PTE_ADDR (pteOf s d va) ≠ pp * PGSIZE →
          PTE_ADDR (pteOf s d va) / PGSIZE ≠ d ∧
          PTE_ADDR (pteOf s d va) / PGSIZE ≠ tblOf s d va)) ∧
  (pdeOf s d va = 0 → s.free_pages ≠ some d)

/-- Two successive identical `page_insert` calls (observation helper). -/
def insertTwice (s : MemState) (pgdir pp va perm : Nat) : Option MemState :=
  (page_insert s pgdir pp va perm).bind fun u => page_insert u pgdir pp va perm

/-- The state produced by `pgdir_walk`'s create path when the free-list
head is `h0`: the frame is popped and `0xCC`-filled by `page_alloc`, its
`pp_ref` incremented, its data zeroed, and the PDE set to
`physaddr | PTE_U | PTE_W | PTE_P` (a name for the nested updates, used
by the unfolding lemmas below). -/
def walkCreateState (s : MemState) (d va h0 : Nat) : MemState :=
  setMemS
    (fillMemS (increfS { fillMemS s h0 0xCCCCCCCC with free_pages := (s.pages h0).pp_next } h0) h0 0)
    d (PDX va) (h0 * PGSIZE ||| PTE_U ||| PTE_W ||| PTE_P)

/-- `page_init`'s state after the first loop has pushed frames
`1 .. n` onto the free list (starting from the `mem_init`-zeroed
registry).  With `npages = 160` the loop runs to `n = 159`. -/
def initStage1 (n : Nat) : MemState :=
  iterFrom pageInitPush 1 n { zeroMemState with free_pages := none }

/-- `page_init`'s state after "mark page 0 as in use"
(for the 160-page configuration). -/
def initStage2 : MemState :=
  increfS (setNextS (initStage1 159) 1 ((initStage1 159).pages 0).pp_next) 0

/-- `page_init`'s state after the I/O-hole loop
(`i = 160 .. 255`, for the 160-page configuration). -/
def initStage3 : MemState :=
  iterFrom pageInitReserve 160 96 initStage2

/-! Concrete states used by witnesses and counterexamples.  Frame `1` is
the page directory throughout; `va = 0x1000` has `PDX = 0`, `PTX = 1`. -/

/-- Directory frame `1` whose `PDX 0` entry points at table frame `2`
(permissions `U|W|P`); nothing mapped, empty free list. -/
def W1 : MemState :=
  { pages := fun _ => ⟨0, none⟩,
    free_pages := none,
    mem := fun f i => if f = 1 ∧ i = 0 then 2 * PGSIZE ||| 7 else 0,
    tlb := [] }

/-- Like `W1` but table entry `1` maps frame `5` (`pp_ref = 2`); used to
exercise replacement of an old mapping. -/
def W4 : MemState :=
  { pages := fun j => if j = 5 then ⟨2, none⟩ else ⟨0, none⟩,
    free_pages := none,
    mem := fun f i => if f = 1 ∧ i = 0 then 2 * PGSIZE ||| 7
                      else if f = 2 ∧ i = 1 then 5 * PGSIZE ||| PTE_P else 0,
    tlb := [] }

/-- Like `W1` but the table entry maps physical page `0` (`PTE_ADDR`
zero, present bits set), and frame `0` has `pp_ref = 5`. -/
def C4S : MemState :=
  { pages := fun j => if j = 0 then ⟨5, none⟩ else ⟨0, none⟩,
    free_pages := none,
    mem := fun f i => if f = 1 ∧ i = 0 then 2 * PGSIZE ||| 7
                      else if f = 2 ∧ i = 1 then 5 else 0,
    tlb := [] }

/-- Empty directory frame `1`; exactly one free frame (`3`). -/
def C5S : MemState :=
  { pages := fun _ => ⟨0, none⟩,
    free_pages := some 3,
    mem := fun _ _ => 0,
    tlb := [] }

/-- Directory frame `1`, table frame `2` mapping frame `3`
(`pp_ref = 1`) at table index `1`; empty invalidation log. -/
def C6S : MemState :=
  { pages := fun j => if j = 3 then ⟨1, none⟩ else ⟨0, none⟩,
    free_pages := none,
    mem := fun f i => if f = 1 ∧ i = 0 then 2 * PGSIZE ||| 7
                      else if f = 2 ∧ i = 1 then 3 * PGSIZE ||| PTE_P else 0,
    tlb := [] }

/-- Empty directory frame `1`; one free frame (`2`). -/
def C7S : MemState :=
  { pages := fun _ => ⟨0, none⟩,
    free_pages := some 2,
    mem := fun _ _ => 0,
    tlb := [] }

/-- Directory frame `1` with table frame `2` already present; free list
`[9]`; nothing mapped yet. -/
def W7 : MemState :=
  { pages := fun j => if j = 9 then ⟨0, none⟩ else ⟨0, none⟩,
    free_pages := some 9,
    mem := fun f i => if f = 1 ∧ i = 0 then 2 * PGSIZE ||| 7 else 0,
    tlb := [] }

/-- Free list `5 → 4 → 3`; `kern_pgdir` is frame `1` and translates
`va = 0x1000` to physical page `5` — the free-list head — as happens
when `alloc_free_page`'s cursor reaches memory backing the head. -/
def C2S : MemState :=
  { pages := fun j => if j = 5 then ⟨0, some 4⟩ else if j = 4 then ⟨0, some 3⟩
             else if j = 3 then ⟨0, none⟩ else ⟨0, none⟩,
    free_pages := some 5,
    mem := fun f i => if f = 1 ∧ i = 0 then 2 * PGSIZE ||| PTE_P
                      else if f = 2 ∧ i = 1 then 5 * PGSIZE ||| PTE_P else 0,
    tlb := [] }

/-- Directory frame `1`, table frame `2` mapping frame `3` at `0x1000`;
used to show a non-null `pte_store` does return the mapped page. -/
def C10S : MemState :=
  { pages := fun j => if j = 3 then ⟨1, none⟩ else ⟨0, none⟩,
    free_pages := none,
    mem := fun f i => if f = 1 ∧ i = 0 then 2 * PGSIZE ||| 7
                      else if f = 2 ∧ i = 1 then 3 * PGSIZE ||| PTE_P else 0,
    tlb := [] }

/-! Arithmetic facts about entry encoding: a page-table entry is built
as `physaddr | perm | PTE_P` with `perm` below `PGSIZE = 2 ^ 12`, so
`PTE_ADDR` recovers the physical address and the entry is nonzero. -/

theorem shiftRight_lor (a b n : Nat) : (a ||| b) >>> n = a >>> n ||| b >>> n :=
  Nat.eq_of_testBit_eq (by simp [Nat.testBit_shiftRight, Nat.testBit_or])

theorem div_pgsize_shift (x : Nat) : x / PGSIZE = x >>> 12 := by
  rw [Nat.shiftRight_eq_div_pow]; norm_num [PGSIZE]

theorem lor_small_div (x y : Nat) (hy : y < PGSIZE) : (x * PGSIZE ||| y) / PGSIZE = x := by
  rw [div_pgsize_shift, shiftRight_lor]
  have h1 : (x * PGSIZE) >>> 12 = x := by
    rw [Nat.shiftRight_eq_div_pow]
    norm_num [PGSIZE]
  have h2 : y >>> 12 = 0 := by
    rw [Nat.shiftRight_eq_div_pow]
    exact Nat.div_eq_of_lt (by simpa [PGSIZE] using hy)
  rw [h1, h2, Nat.or_zero]

theorem perm_or_p_lt (perm : Nat) (h : perm < PGSIZE) : perm ||| PTE_P < PGSIZE := by
  have ha : perm < 2 ^ 12 := by simpa [PGSIZE] using h
  have hb : PTE_P < 2 ^ 12 := by norm_num [PTE_P]
  have hc : perm ||| PTE_P < 2 ^ 12 := Nat.or_lt_two_pow ha hb
  simpa [PGSIZE] using hc

theorem mkpte_div (pp perm : Nat) (h : perm < PGSIZE) :
    (pp * PGSIZE ||| perm ||| PTE_P) / PGSIZE = pp := by
  rw [Nat.lor_assoc]
  exact lor_small_div pp (perm ||| PTE_P) (perm_or_p_lt perm h)

theorem mkpte_pte_addr (pp perm : Nat) (h : perm < PGSIZE) :
    PTE_ADDR (pp * PGSIZE ||| perm ||| PTE_P) = pp * PGSIZE := by
  have h4096 : PGSIZE = 4096 := rfl
  unfold PTE_ADDR
  rw [← h4096, mkpte_div pp perm h]

theorem mkpte_ne_zero (pp perm : Nat) : (pp * PGSIZE ||| perm ||| PTE_P) ≠ 0 := by
  intro h
  have h1 : (pp * PGSIZE ||| perm ||| PTE_P).testBit 0 = true := by
    rw [Nat.testBit_or]
    have hp : PTE_P.testBit 0 = true := rfl
    simp [hp]
  rw [h] at h1
  exact absurd h1 (by decide)

theorem pte_addr_div (x : Nat) : PTE_ADDR x / PGSIZE = x / PGSIZE := by
  unfold PTE_ADDR PGSIZE
  omega

theorem pte_addr_of_div (x : Nat) : PTE_ADDR x = x / PGSIZE * PGSIZE := rfl

/-! Read-after-write laws for the state helpers. -/

@[simp] theorem setMemS_pages (s : MemState) (f i v : Nat) :
    (setMemS s f i v).pages = s.pages := rfl

@[simp] theorem setMemS_free (s : MemState) (f i v : Nat) :
    (setMemS s f i v).free_pages = s.free_pages := rfl

@[simp] theorem setMemS_tlb (s : MemState) (f i v : Nat) :
    (setMemS s f i v).tlb = s.tlb := rfl

theorem setMemS_mem (s : MemState) (f i v f' i' : Nat) :
    (setMemS s f i v).mem f' i' = if f' = f ∧ i' = i then v else s.mem f' i' := rfl

@[simp] theorem fillMemS_pages (s : MemState) (f v : Nat) :
    (fillMemS s f v).pages = s.pages := rfl

@[simp] theorem fillMemS_free (s : MemState) (f v : Nat) :
    (fillMemS s f v).free_pages = s.free_pages := rfl

@[simp] theorem fillMemS_tlb (s : MemState) (f v : Nat) :
    (fillMemS s f v).tlb = s.tlb := rfl

theorem fillMemS_mem (s : MemState) (f v f' i' : Nat) :
    (fillMemS s f v).mem f' i' = if f' = f then v else s.mem f' i' := rfl

@[simp] theorem setRefS_mem (s : MemState) (f r : Nat) :
    (setRefS s f r).mem = s.mem := rfl

@[simp] theorem setRefS_free (s : MemState) (f r : Nat) :
    (setRefS s f r).free_pages = s.free_pages := rfl

@[simp] theorem setRefS_tlb (s : MemState) (f r : Nat) :
    (setRefS s f r).tlb = s.tlb := rfl

theorem setRefS_pages (s : MemState) (f r j : Nat) :
    (setRefS s f r).pages j = if j = f then ⟨r, (s.pages f).pp_next⟩ else s.pages j := rfl

@[simp] theorem setNextS_mem (s : MemState) (f : Nat) (nx : Option Nat) :
    (setNextS s f nx).mem = s.mem := rfl

@[simp] theorem setNextS_free (s : MemState) (f : Nat) (nx : Option Nat) :
    (setNextS s f nx).free_pages = s.free_pages := rfl

@[simp] theorem setNextS_tlb (s : MemState) (f : Nat) (nx : Option Nat) :
    (setNextS s f nx).tlb = s.tlb := rfl

theorem setNextS_pages (s : MemState) (f : Nat) (nx : Option Nat) (j : Nat) :
    (setNextS s f nx).pages j = if j = f then ⟨(s.pages f).pp_ref, nx⟩ else s.pages j := rfl

@[simp] theorem increfS_mem (s : MemState) (f : Nat) :
    (increfS s f).mem = s.mem := rfl

@[simp] theorem increfS_free (s : MemState) (f : Nat) :
    (increfS s f).free_pages = s.free_pages := rfl

@[simp] theorem increfS_tlb (s : MemState) (f : Nat) :
    (increfS s f).tlb = s.tlb := rfl

theorem increfS_pages (s : MemState) (f j : Nat) :
    (increfS s f).pages j =
      if j = f then ⟨(s.pages f).pp_ref + 1, (s.pages f).pp_next⟩ else s.pages j := rfl

/-! Unfolding lemmas for the walker, lookup, remove and insert, split by
the branch of the C code they traverse. -/

theorem mkpde_div (x : Nat) :
    PTE_ADDR (x * PGSIZE ||| PTE_U ||| PTE_W ||| PTE_P) / PGSIZE = x := by
  rw [pte_addr_div, Nat.lor_assoc, Nat.lor_assoc]
  exact lor_small_div x (PTE_U ||| (PTE_W ||| PTE_P)) (by decide)

theorem walk_pde_ne (s : MemState) (d va : Nat) (c : Bool) (h : pdeOf s d va ≠ 0) :
    pgdir_walk s d va c = (some (tblOf s d va, PTX va), s) := by
  unfold pdeOf at h
  unfold pgdir_walk tblOf pdeOf
  simp only [if_neg h]

theorem walk_false_pde_ne (s : MemState) (d va : Nat) (h : pdeOf s d va ≠ 0) :
    pgdir_walk s d va false = (some (tblOf s d va, PTX va), s) := by
  unfold pdeOf at h
  unfold pgdir_walk tblOf pdeOf
  simp only [if_neg h]

theorem walk_false_pde_eq (s : MemState) (d va : Nat) (h : pdeOf s d va = 0) :
    pgdir_walk s d va false = (none, s) := by
  unfold pdeOf at h
  unfold pgdir_walk
  simp only [h, if_pos, Bool.not_false, if_true]

theorem walk_true_eq (s : MemState) (d va h0 : Nat)
    (hpde : pdeOf s d va = 0) (hf : s.free_pages = some h0) :
    pgdir_walk s d va true = (some (h0, PTX va), walkCreateState s d va h0) := by
  unfold pdeOf at hpde
  unfold pgdir_walk page_alloc walkCreateState
  rw [hf]
  simp only [hpde, if_pos, Bool.not_true, Bool.false_eq_true, if_false]
  have hread : (setMemS
      (fillMemS (increfS { fillMemS s h0 0xCCCCCCCC with free_pages := (s.pages h0).pp_next } h0) h0 0)
      d (PDX va) (h0 * PGSIZE ||| PTE_U ||| PTE_W ||| PTE_P)).mem d (PDX va) =
      h0 * PGSIZE ||| PTE_U ||| PTE_W ||| PTE_P := by
    rw [setMemS_mem, if_pos ⟨rfl, rfl⟩]
  rw [hread, mkpde_div]

theorem walk_true_none (s : MemState) (d va : Nat)
    (hpde : pdeOf s d va = 0) (hf : s.free_pages = none) :
    pgdir_walk s d va true = (none, s) := by
  unfold pdeOf at hpde
  unfold pgdir_walk page_alloc
  rw [hf]
  simp only [hpde, if_pos, Bool.not_true, Bool.false_eq_true, if_false]

theorem lookup_of_pte (u : MemState) (d va pp perm : Nat) (hperm : perm < PGSIZE)
    (hpde : pdeOf u d va ≠ 0)
    (hv : pteOf u d va = pp * PGSIZE ||| perm ||| PTE_P) :
    (page_lookup u d va true).1 = some pp := by
  unfold page_lookup
  rw [walk_false_pde_ne u d va hpde]
  unfold pteOf at hv
  simp only [hv, if_true]
  rw [if_neg (mkpte_ne_zero pp perm)]
  rw [pte_addr_div, mkpte_div pp perm hperm]

theorem lookup_eq_mapped (u : MemState) (d va : Nat)
    (hpde : pdeOf u d va ≠ 0) (hcell : pteOf u d va ≠ 0) :
    page_lookup u d va true =
      (some (PTE_ADDR (pteOf u d va) / PGSIZE), some (tblOf u d va, PTX va)) := by
  unfold page_lookup
  rw [walk_false_pde_ne u d va hpde]
  unfold pteOf at hcell ⊢
  simp only [if_true, if_neg hcell]

theorem page_decref_mem (u : MemState) (X f i : Nat) (h : f ≠ X) :
    (page_decref u X).mem f i = u.mem f i := by
  unfold page_decref page_free
  dsimp only
  split
  · simp only [Option.getD_some]
    rw [setNextS_mem, fillMemS_mem, if_neg h, setRefS_mem]
  · simp only [setRefS_mem]

theorem page_decref_pages_ne (u : MemState) (X j : Nat) (h : j ≠ X) :
    (page_decref u X).pages j = u.pages j := by
  unfold page_decref page_free
  dsimp only
  split
  · simp only [Option.getD_some]
    rw [setNextS_pages, if_neg h]
    simp only [fillMemS_pages]
    rw [setRefS_pages, if_neg h]
  · rw [setRefS_pages, if_neg h]

theorem page_decref_ref (u : MemState) (X : Nat) :
    ((page_decref u X).pages X).pp_ref = (u.pages X).pp_ref - 1 := by
  unfold page_decref page_free
  dsimp only
  split
  · simp only [Option.getD_some]
    rw [setNextS_pages, if_pos rfl]
    simp only [fillMemS_pages]
    rw [setRefS_pages, if_pos rfl]
  · rw [setRefS_pages, if_pos rfl]

@[simp] theorem tlb_invalidate_mem (s : MemState) (d va : Nat) :
    (tlb_invalidate s d va).mem = s.mem := rfl

@[simp] theorem tlb_invalidate_pages (s : MemState) (d va : Nat) :
    (tlb_invalidate s d va).pages = s.pages := rfl

theorem remove_eq (s : MemState) (d va : Nat)
    (hpde : pdeOf s d va ≠ 0) (hcell : pteOf s d va ≠ 0) :
    page_remove s d va =
      tlb_invalidate
        (setMemS (page_decref s (PTE_ADDR (pteOf s d va) / PGSIZE)) (tblOf s d va) (PTX va) 0)
        d va := by
  unfold page_remove
  rw [lookup_eq_mapped s d va hpde hcell]

theorem remove_noop (s : MemState) (d va : Nat) (hpde : pdeOf s d va = 0) :
    page_remove s d va = s := by
  unfold page_remove page_lookup
  rw [walk_false_pde_eq s d va hpde]

theorem remove_mem_d (s : MemState) (d va : Nat)
    (hpde : pdeOf s d va ≠ 0) (hcell : pteOf s d va ≠ 0)
    (hXd : PTE_ADDR (pteOf s d va) / PGSIZE ≠ d)
    (htd : ¬(tblOf s d va = d ∧ PDX va = PTX va)) :
    (page_remove s d va).mem d (PDX va) = pdeOf s d va := by
  rw [remove_eq s d va hpde hcell]
  rw [tlb_invalidate_mem, setMemS_mem]
  rw [if_neg (by intro hdd; exact htd ⟨hdd.1.symm, hdd.2⟩)]
  exact page_decref_mem s _ d (PDX va) (Ne.symm hXd)

/-- After `page_remove` on a mapped address whose frame is not the
directory, a fresh lookup sees nothing: either the PTE write zeroed the
aliased PDE (then the walk fails), or the PDE is intact and the PTE is
zero. -/
theorem remove_lookup_none (u : MemState) (d va : Nat)
    (hpde : pdeOf u d va ≠ 0) (hcell : pteOf u d va ≠ 0)
    (hXd : PTE_ADDR (pteOf u d va) / PGSIZE ≠ d) :
    (page_lookup (page_remove u d va) d va true).1 = none := by
  rw [remove_eq u d va hpde hcell]
  by_cases htd : tblOf u d va = d ∧ PDX va = PTX va
  · have hz : pdeOf (tlb_invalidate
        (setMemS (page_decref u (PTE_ADDR (pteOf u d va) / PGSIZE)) (tblOf u d va) (PTX va) 0)
        d va) d va = 0 := by
      unfold pdeOf
      rw [tlb_invalidate_mem, setMemS_mem, if_pos ⟨htd.1.symm, htd.2⟩]
    unfold page_lookup
    rw [walk_false_pde_eq _ d va hz]
  · have hpde' : pdeOf (tlb_invalidate
        (setMemS (page_decref u (PTE_ADDR (pteOf u d va) / PGSIZE)) (tblOf u d va) (PTX va) 0)
        d va) d va = pdeOf u d va := by
      unfold pdeOf
      rw [tlb_invalidate_mem, setMemS_mem]
      rw [if_neg (by intro hdd; exact htd ⟨hdd.1.symm, hdd.2⟩)]
      exact page_decref_mem u _ d (PDX va) (Ne.symm hXd)
    unfold page_lookup
    rw [walk_false_pde_ne _ d va (by rw [hpde']; exact hpde)]
    have htbl : tblOf (tlb_invalidate
        (setMemS (page_decref u (PTE_ADDR (pteOf u d va) / PGSIZE)) (tblOf u d va) (PTX va) 0)
        d va) d va = tblOf u d va :=
      congrArg (fun x => PTE_ADDR x / PGSIZE) hpde'
    have hread : (tlb_invalidate
        (setMemS (page_decref u (PTE_ADDR (pteOf u d va) / PGSIZE)) (tblOf u d va) (PTX va) 0)
        d va).mem (tblOf u d va) (PTX va) = 0 := by
      rw [tlb_invalidate_mem, setMemS_mem, if_pos ⟨rfl, rfl⟩]
    simp only [htbl, hread, if_true, if_pos rfl]

/-- `page_insert`, same-frame branch: only the final permission rewrite
of the PTE happens. -/
theorem insert_eq_same (s : MemState) (d pp va perm : Nat)
    (hpde : pdeOf s d va ≠ 0)
    (heq : PTE_ADDR (pteOf s d va) = pp * PGSIZE) :
    page_insert s d pp va perm =
      some (setMemS s (tblOf s d va) (PTX va) (pp * PGSIZE ||| perm ||| PTE_P)) := by
  unfold page_insert
  rw [walk_false_pde_ne s d va hpde]
  unfold pteOf at heq
  simp only [heq, ne_eq, not_true_eq_false, if_neg, if_false, ite_not]
  rfl

/-- `page_insert`, different-frame branch with no old mapping
(`PTE_ADDR(*pte) == 0`): no removal, one reference increment, PTE
rewrite. -/
theorem insert_eq_fresh (s : MemState) (d pp va perm : Nat)
    (hpde : pdeOf s d va ≠ 0)
    (hne : PTE_ADDR (pteOf s d va) ≠ pp * PGSIZE)
    (hz : PTE_ADDR (pteOf s d va) = 0) :
    page_insert s d pp va perm =
      some (setMemS (increfS s pp) (tblOf s d va) (PTX va)
              (pp * PGSIZE ||| perm ||| PTE_P)) := by
  unfold page_insert
  rw [walk_false_pde_ne s d va hpde]
  unfold pteOf at hne hz
  dsimp only
  rw [if_pos hne, if_neg (not_not_intro hz)]
  rfl

/-- `page_insert`, different-frame branch over an old mapping
(`PTE_ADDR(*pte) != 0`): `page_remove` first, then the increment and the
PTE rewrite located through the post-removal PDE. -/
theorem insert_eq_replace (s : MemState) (d pp va perm : Nat)
    (hpde : pdeOf s d va ≠ 0)
    (hne : PTE_ADDR (pteOf s d va) ≠ pp * PGSIZE)
    (hz : PTE_ADDR (pteOf s d va) ≠ 0) :
    page_insert s d pp va perm =
      some (setMemS (increfS (page_remove s d va) pp)
              (PTE_ADDR ((page_remove s d va).mem d (PDX va)) / PGSIZE) (PTX va)
              (pp * PGSIZE ||| perm ||| PTE_P)) := by
  unfold page_insert
  rw [walk_false_pde_ne s d va hpde]
  unfold pteOf at hne hz
  simp only [hne, hz, ne_eq, not_false_eq_true, if_pos, if_true, increfS_mem]

/-- `page_insert`, no-table branch with an empty free list: the create
walk fails and `-E_NO_MEM` (`none`) is returned. -/
theorem insert_eq_nomem (s : MemState) (d pp va perm : Nat)
    (hpde : pdeOf s d va = 0) (hf : s.free_pages = none) :
    page_insert s d pp va perm = none := by
  unfold page_insert
  rw [walk_false_pde_eq s d va hpde, walk_true_none s d va hpde hf]

/-- `page_insert`, no-table branch with free-list head `h0`: the create
walk builds the table, the PDE is overwritten with
`table physaddr | perm | PTE_P`, `pp_ref` incremented, PTE rewritten. -/
theorem insert_eq_create (s : MemState) (d pp va perm h0 : Nat)
    (hpde : pdeOf s d va = 0) (hf : s.free_pages = some h0)
    (hperm : perm < PGSIZE) :
    page_insert s d pp va perm =
      some (setMemS
              (increfS (setMemS (walkCreateState s d va h0) d (PDX va)
                          (h0 * PGSIZE ||| perm ||| PTE_P)) pp)
              h0 (PTX va) (pp * PGSIZE ||| perm ||| PTE_P)) := by
  unfold page_insert
  rw [walk_false_pde_eq s d va hpde, walk_true_eq s d va h0 hpde hf]
  have hread : (increfS (setMemS (walkCreateState s d va h0) d (PDX va)
                  (h0 * PGSIZE ||| perm ||| PTE_P)) pp).mem d (PDX va) =
      h0 * PGSIZE ||| perm ||| PTE_P := by
    rw [increfS_mem, setMemS_mem, if_pos ⟨rfl, rfl⟩]
  simp only [hread, pte_addr_div, mkpte_div h0 perm hperm]

/-- What a successful `page_insert` guarantees about the page structure,
under `InsOK`: the PDE for `va` is nonzero, the governing table does not
alias the directory entry, and the governing PTE holds
`pp->physaddr() | perm | PTE_P`. -/
theorem insert_post (s : MemState) (d pp va perm : Nat)
    (hok : InsOK s d pp va perm)
    (s' : MemState) (h : page_insert s d pp va perm = some s') :
    pdeOf s' d va ≠ 0 ∧
    ¬(tblOf s' d va = d ∧ PDX va = PTX va) ∧
    pteOf s' d va = pp * PGSIZE ||| perm ||| PTE_P := by
  obtain ⟨hperm, hppd, hA, hB⟩ := hok
  by_cases hpde : pdeOf s d va = 0
  · rcases hf : s.free_pages with _ | h0
    · rw [insert_eq_nomem s d pp va perm hpde hf] at h
      cases h
    · have hne : h0 ≠ d := by
        intro hh
        exact hB hpde (by rw [hf, hh])
      rw [insert_eq_create s d pp va perm h0 hpde hf hperm] at h
      obtain rfl : _ = s' := Option.some_injective _ h
      have hpde' : pdeOf (setMemS
            (increfS (setMemS (walkCreateState s d va h0) d (PDX va)
                        (h0 * PGSIZE ||| perm ||| PTE_P)) pp)
            h0 (PTX va) (pp * PGSIZE ||| perm ||| PTE_P)) d va =
          h0 * PGSIZE ||| perm ||| PTE_P := by
        unfold pdeOf
        rw [setMemS_mem, if_neg (by intro hdd; exact hne (hdd.1.symm))]
        rw [increfS_mem, setMemS_mem, if_pos ⟨rfl, rfl⟩]
      have htbl : tblOf (setMemS
            (increfS (setMemS (walkCreateState s d va h0) d (PDX va)
                        (h0 * PGSIZE ||| perm ||| PTE_P)) pp)
            h0 (PTX va) (pp * PGSIZE ||| perm ||| PTE_P)) d va = h0 := by
        unfold tblOf
        rw [hpde', pte_addr_div, mkpte_div h0 perm hperm]
      refine ⟨by rw [hpde']; exact mkpte_ne_zero h0 perm, ?_, ?_⟩
      · rw [htbl]
        intro hdd
        exact hne hdd.1
      · unfold pteOf
        rw [htbl, setMemS_mem, if_pos ⟨rfl, rfl⟩]
  · obtain ⟨htd, hG⟩ := hA hpde
    by_cases heq : PTE_ADDR (pteOf s d va) = pp * PGSIZE
    · rw [insert_eq_same s d pp va perm hpde heq] at h
      obtain rfl : _ = s' := Option.some_injective _ h
      have hpde' : pdeOf (setMemS s (tblOf s d va) (PTX va)
            (pp * PGSIZE ||| perm ||| PTE_P)) d va = pdeOf s d va := by
        unfold pdeOf
        rw [setMemS_mem, if_neg (by intro hdd; exact htd ⟨hdd.1.symm, hdd.2⟩)]
      have htbl : tblOf (setMemS s (tblOf s d va) (PTX va)
            (pp * PGSIZE ||| perm ||| PTE_P)) d va = tblOf s d va :=
        congrArg (fun x => PTE_ADDR x / PGSIZE) hpde'
      refine ⟨by rw [hpde']; exact hpde, by rw [htbl]; exact htd, ?_⟩
      · unfold pteOf
        rw [htbl, setMemS_mem, if_pos ⟨rfl, rfl⟩]
    · by_cases hz : PTE_ADDR (pteOf s d va) = 0
      · rw [insert_eq_fresh s d pp va perm hpde heq hz] at h
        obtain rfl : _ = s' := Option.some_injective _ h
        have hpde' : pdeOf (setMemS (increfS s pp) (tblOf s d va) (PTX va)
              (pp * PGSIZE ||| perm ||| PTE_P)) d va = pdeOf s d va := by
          unfold pdeOf
          rw [setMemS_mem, if_neg (by intro hdd; exact htd ⟨hdd.1.symm, hdd.2⟩), increfS_mem]
        have htbl : tblOf (setMemS (increfS s pp) (tblOf s d va) (PTX va)
              (pp * PGSIZE ||| perm ||| PTE_P)) d va = tblOf s d va :=
          congrArg (fun x => PTE_ADDR x / PGSIZE) hpde'
        refine ⟨by rw [hpde']; exact hpde, by rw [htbl]; exact htd, ?_⟩
        · unfold pteOf
          rw [htbl, setMemS_mem, if_pos ⟨rfl, rfl⟩]
      · obtain ⟨hGd, hGt⟩ := hG hz heq
        have hcell : pteOf s d va ≠ 0 := by
          intro hc
          exact hz (by rw [hc]; rfl)
        have hrm : (page_remove s d va).mem d (PDX va) = pdeOf s d va :=
          remove_mem_d s d va hpde hcell hGd htd
        rw [insert_eq_replace s d pp va perm hpde heq hz] at h
        obtain rfl : _ = s' := Option.some_injective _ h
        have hidx : PTE_ADDR ((page_remove s d va).mem d (PDX va)) / PGSIZE = tblOf s d va := by
          rw [hrm]
          rfl
        have hpde' : pdeOf (setMemS (increfS (page_remove s d va) pp)
              (PTE_ADDR ((page_remove s d va).mem d (PDX va)) / PGSIZE) (PTX va)
              (pp * PGSIZE ||| perm ||| PTE_P)) d va = pdeOf s d va := by
          unfold pdeOf
          rw [setMemS_mem, hidx, if_neg (by intro hdd; exact htd ⟨hdd.1.symm, hdd.2⟩)]
          rw [increfS_mem]
          exact hrm
        have htbl : tblOf (setMemS (increfS (page_remove s d va) pp)
              (PTE_ADDR ((page_remove s d va).mem d (PDX va)) / PGSIZE) (PTX va)
              (pp * PGSIZE ||| perm ||| PTE_P)) d va = tblOf s d va :=
          congrArg (fun x => PTE_ADDR x / PGSIZE) hpde'
        refine ⟨by rw [hpde']; exact hpde, by rw [htbl]; exact htd, ?_⟩
        · unfold pteOf
          rw [htbl, setMemS_mem, hidx, if_pos ⟨rfl, rfl⟩]

theorem pte_addr_div_mul (x : Nat) : PTE_ADDR x / PGSIZE * PGSIZE = PTE_ADDR x := by
  rw [pte_addr_div]
  rfl

/-! ## Claim theorems -/

/-- C1: for every structurally well-formed directory state, frame and
page-aligned address, after a successful `page_insert` the `page_lookup`
(with a `pte_store`) returns the inserted frame, and after a further
`page_remove` it returns nothing. -/
theorem C1_insert_lookup_remove_roundtrip (s : MemState) (d pp va perm : Nat)
    (hal : va % PGSIZE = 0)
    (hok : InsOK s d pp va perm)
    (hs : (page_insert s d pp va perm).isSome = true) :
    optLookup (page_insert s d pp va perm) d va = some (some pp) ∧
    optLookupAfterRemove (page_insert s d pp va perm) d va = some none := by
  obtain ⟨s', hE⟩ := Option.isSome_iff_exists.mp hs
  obtain ⟨hpde', htd', hcell'⟩ := insert_post s d pp va perm hok s' hE
  have hperm := hok.1
  have hppd := hok.2.1
  have hlk : (page_lookup s' d va true).1 = some pp :=
    lookup_of_pte s' d va pp perm hperm hpde' hcell'
  have hXd : PTE_ADDR (pteOf s' d va) / PGSIZE ≠ d := by
    rw [hcell', pte_addr_div, mkpte_div pp perm hperm]
    exact hppd
  have hcz : pteOf s' d va ≠ 0 := by
    rw [hcell']
    exact mkpte_ne_zero pp perm
  have hrm : (page_lookup (page_remove s' d va) d va true).1 = none :=
    remove_lookup_none s' d va hpde' hcz hXd
  constructor
  · unfold optLookup
    rw [hE, Option.map_some', hlk]
  · unfold optLookupAfterRemove
    rw [hE, Option.map_some', hrm]

/-- Witness for `C1_insert_lookup_remove_roundtrip` on `W1`: insert
frame `3` at `0x1000` with `PTE_W`. -/
theorem C1_witness :
    (0x1000 : Nat) % PGSIZE = 0 ∧ InsOK W1 1 3 0x1000 2 ∧
    (page_insert W1 1 3 0x1000 2).isSome = true ∧
    optLookup (page_insert W1 1 3 0x1000 2) 1 0x1000 = some (some 3) ∧
    optLookupAfterRemove (page_insert W1 1 3 0x1000 2) 1 0x1000 = some none := by
  refine ⟨by decide, by decide, by decide, ?_, ?_⟩
  · exact (C1_insert_lookup_remove_roundtrip W1 1 3 0x1000 2 (by decide) (by decide) (by decide)).1
  · exact (C1_insert_lookup_remove_roundtrip W1 1 3 0x1000 2 (by decide) (by decide) (by decide)).2

/-- C3: for every structurally well-formed directory state, calling
`page_insert` twice with the same directory, frame, address and
permissions (the first call succeeding) leaves the frame's `pp_ref`
after the second call equal to its value after the first call: the
second call takes the same-frame branch, which touches no reference
count. -/
theorem C3_insert_idempotent_refcount (s : MemState) (d pp va perm : Nat)
    (hok : InsOK s d pp va perm)
    (hs : (page_insert s d pp va perm).isSome = true) :
    (insertTwice s d pp va perm).isSome = true ∧
    optRef (insertTwice s d pp va perm) pp = optRef (page_insert s d pp va perm) pp := by
  obtain ⟨s', hE⟩ := Option.isSome_iff_exists.mp hs
  obtain ⟨hpde', htd', hcell'⟩ := insert_post s d pp va perm hok s' hE
  have hperm := hok.1
  have heq : PTE_ADDR (pteOf s' d va) = pp * PGSIZE := by
    rw [hcell']
    exact mkpte_pte_addr pp perm hperm
  have h2 : page_insert s' d pp va perm =
      some (setMemS s' (tblOf s' d va) (PTX va) (pp * PGSIZE ||| perm ||| PTE_P)) :=
    insert_eq_same s' d pp va perm hpde' heq
  constructor
  · unfold insertTwice
    rw [hE, Option.some_bind, h2]
    rfl
  · unfold insertTwice optRef
    rw [hE, Option.some_bind, h2, Option.map_some', Option.map_some', setMemS_pages]

/-- Witness for `C3_insert_idempotent_refcount` on `W1`. -/
theorem C3_witness :
    InsOK W1 1 3 0x1000 2 ∧ (page_insert W1 1 3 0x1000 2).isSome = true ∧
    (insertTwice W1 1 3 0x1000 2).isSome = true ∧
    optRef (insertTwice W1 1 3 0x1000 2) 3 = optRef (page_insert W1 1 3 0x1000 2) 3 := by
  refine ⟨by decide, by decide, ?_, ?_⟩
  · exact (C3_insert_idempotent_refcount W1 1 3 0x1000 2 (by decide) (by decide)).1
  · exact (C3_insert_idempotent_refcount W1 1 3 0x1000 2 (by decide) (by decide)).2

/-- C4 (amended): inserting a different frame over an existing mapping
whose frame has a *nonzero* physical address (the amendment: the code
treats a PTE with `PTE_ADDR(*pte) == 0` — physical page `0` — as "no
old frame", skipping the removal) leaves exactly the new mapping at the
address, decrements the old frame's reference count by exactly one, and
increments the new frame's by one. -/
theorem C4_replace_decrements_old_frame (s : MemState) (d pp va perm : Nat)
    (hperm : perm < PGSIZE) (hppd : pp ≠ d)
    (hpde : pdeOf s d va ≠ 0)
    (hz : PTE_ADDR (pteOf s d va) ≠ 0)
    (hne : PTE_ADDR (pteOf s d va) ≠ pp * PGSIZE)
    (hGd : PTE_ADDR (pteOf s d va) / PGSIZE ≠ d)
    (hGt : PTE_ADDR (pteOf s d va) / PGSIZE ≠ tblOf s d va)
    (htd : ¬(tblOf s d va = d ∧ PDX va = PTX va))
    (hGref : 1 ≤ (s.pages (PTE_ADDR (pteOf s d va) / PGSIZE)).pp_ref) :
    (page_insert s d pp va perm).isSome = true ∧
    optLookup (page_insert s d pp va perm) d va = some (some pp) ∧
    optRef (page_insert s d pp va perm) (PTE_ADDR (pteOf s d va) / PGSIZE)
      = some ((s.pages (PTE_ADDR (pteOf s d va) / PGSIZE)).pp_ref - 1) ∧
    optRef (page_insert s d pp va perm) pp = some ((s.pages pp).pp_ref + 1) := by
  have hcell : pteOf s d va ≠ 0 := by
    intro hc
    exact hz (by rw [hc]; rfl)
  have hGpp : PTE_ADDR (pteOf s d va) / PGSIZE ≠ pp := by
    intro hc
    apply hne
    rw [← pte_addr_div_mul (pteOf s d va), hc]
  have E := insert_eq_replace s d pp va perm hpde hne hz
  have hok : InsOK s d pp va perm :=
    ⟨hperm, hppd, fun _ => ⟨htd, fun _ _ => ⟨hGd, hGt⟩⟩, fun hc => absurd hc hpde⟩
  obtain ⟨hpde', htd', hcell'⟩ := insert_post s d pp va perm hok _ E
  refine ⟨by rw [E]; rfl, ?_, ?_, ?_⟩
  · unfold optLookup
    rw [E, Option.map_some']
    rw [lookup_of_pte _ d va pp perm hperm hpde' hcell']
  · unfold optRef
    rw [E, Option.map_some', setMemS_pages]
    rw [increfS_pages, if_neg hGpp]
    rw [remove_eq s d va hpde hcell]
    rw [tlb_invalidate_pages, setMemS_pages]
    rw [page_decref_ref s _]
  · unfold optRef
    rw [E, Option.map_some', setMemS_pages]
    rw [increfS_pages, if_pos rfl]
    rw [remove_eq s d va hpde hcell]
    rw [tlb_invalidate_pages, setMemS_pages]
    rw [page_decref_pages_ne s _ pp (fun hc => hGpp hc.symm)]

/-- Witness for `C4_replace_decrements_old_frame` on `W4`: frame `5`
(`pp_ref = 2`) is mapped at `0x1000`; frame `3` is inserted over it. -/
theorem C4_witness :
    (page_insert W4 1 3 0x1000 2).isSome = true ∧
    optLookup (page_insert W4 1 3 0x1000 2) 1 0x1000 = some (some 3) ∧
    optRef (page_insert W4 1 3 0x1000 2) (PTE_ADDR (pteOf W4 1 0x1000) / PGSIZE)
      = some ((W4.pages (PTE_ADDR (pteOf W4 1 0x1000) / PGSIZE)).pp_ref - 1) ∧
    optRef (page_insert W4 1 3 0x1000 2) 3 = some ((W4.pages 3).pp_ref + 1) :=
  C4_replace_decrements_old_frame W4 1 3 0x1000 2 (by decide) (by decide) (by decide)
    (by decide) (by decide) (by decide) (by decide) (by decide) (by decide)

/-- One iteration of `page_map_segment`'s loop when the governing page
table already exists: no allocation, just the raw entry write. -/
theorem segLoop_step (pgdir la pa perm n k : Nat) (s : MemState)
    (h : pdeOf s pgdir (la + k * PGSIZE) ≠ 0) :
    segLoop pgdir la pa perm (n + 1) k s =
      segLoop pgdir la pa perm n (k + 1)
        (setMemS s (tblOf s pgdir (la + k * PGSIZE)) (PTX (la + k * PGSIZE))
          ((pa + k * PGSIZE) ||| perm ||| PTE_P)) := by
  simp only [segLoop]
  rw [walk_pde_ne s pgdir (la + k * PGSIZE) true h]

/-- C7 (amended): mapping a 3-page range with `page_map_segment` at a
page-aligned linear address and physical base, *when the governing page
tables already exist* (the amendment: with a missing table the create
walk consumes a free frame, see the counterexample), writes exactly the
three PTEs `(pa + i·PGSIZE) | perm | PTE_P` and changes nothing else —
in particular the free list and all reference counts are untouched. -/
theorem C7_map_three_pages (s : MemState) (d la pa perm : Nat)
    (hla : la % PGSIZE = 0) (hpa : pa % PGSIZE = 0) (hperm : perm < PGSIZE)
    (h0 : pdeOf s d la ≠ 0) (h1 : pdeOf s d (la + PGSIZE) ≠ 0)
    (h2 : pdeOf s d (la + 2 * PGSIZE) ≠ 0)
    (t0 : tblOf s d la ≠ d) (t1 : tblOf s d (la + PGSIZE) ≠ d)
    (t2 : tblOf s d (la + 2 * PGSIZE) ≠ d) :
    page_map_segment s d la (3 * PGSIZE) pa perm =
      some (setMemS (setMemS (setMemS s
              (tblOf s d la) (PTX la) (pa ||| perm ||| PTE_P))
              (tblOf s d (la + PGSIZE)) (PTX (la + PGSIZE))
              ((pa + PGSIZE) ||| perm ||| PTE_P))
              (tblOf s d (la + 2 * PGSIZE)) (PTX (la + 2 * PGSIZE))
              ((pa + 2 * PGSIZE) ||| perm ||| PTE_P)) ∧
    optFree (page_map_segment s d la (3 * PGSIZE) pa perm) = some s.free_pages ∧
    (page_map_segment s d la (3 * PGSIZE) pa perm).map MemState.pages = some s.pages := by
  have e0l : la + 0 * PGSIZE = la := by omega
  have e0p : pa + 0 * PGSIZE = pa := by omega
  have e1l : la + 1 * PGSIZE = la + PGSIZE := by omega
  have e1p : pa + 1 * PGSIZE = pa + PGSIZE := by omega
  -- the first write misses every PDE read (its table is not `d`)
  have hp1 : pdeOf (setMemS s (tblOf s d la) (PTX la) (pa ||| perm ||| PTE_P))
      d (la + PGSIZE) = pdeOf s d (la + PGSIZE) := by
    unfold pdeOf
    rw [setMemS_mem, if_neg (fun hc => t0 hc.1.symm)]
  have ht1 : tblOf (setMemS s (tblOf s d la) (PTX la) (pa ||| perm ||| PTE_P))
      d (la + PGSIZE) = tblOf s d (la + PGSIZE) :=
    congrArg (fun x => PTE_ADDR x / PGSIZE) hp1
  have hp2 : pdeOf (setMemS (setMemS s
        (tblOf s d la) (PTX la) (pa ||| perm ||| PTE_P))
        (tblOf s d (la + PGSIZE)) (PTX (la + PGSIZE)) ((pa + PGSIZE) ||| perm ||| PTE_P))
      d (la + 2 * PGSIZE) = pdeOf s d (la + 2 * PGSIZE) := by
    unfold pdeOf
    rw [setMemS_mem, if_neg (fun hc => t1 hc.1.symm)]
    rw [setMemS_mem, if_neg (fun hc => t0 hc.1.symm)]
  have ht2 : tblOf (setMemS (setMemS s
        (tblOf s d la) (PTX la) (pa ||| perm ||| PTE_P))
        (tblOf s d (la + PGSIZE)) (PTX (la + PGSIZE)) ((pa + PGSIZE) ||| perm ||| PTE_P))
      d (la + 2 * PGSIZE) = tblOf s d (la + 2 * PGSIZE) :=
    congrArg (fun x => PTE_ADDR x / PGSIZE) hp2
  have main : page_map_segment s d la (3 * PGSIZE) pa perm =
      some (setMemS (setMemS (setMemS s
              (tblOf s d la) (PTX la) (pa ||| perm ||| PTE_P))
              (tblOf s d (la + PGSIZE)) (PTX (la + PGSIZE))
              ((pa + PGSIZE) ||| perm ||| PTE_P))
              (tblOf s d (la + 2 * PGSIZE)) (PTX (la + 2 * PGSIZE))
              ((pa + 2 * PGSIZE) ||| perm ||| PTE_P)) := by
    unfold page_map_segment
    rw [if_pos hla]
    have hsz : round_up (3 * PGSIZE) PGSIZE / PGSIZE = 3 := by decide
    rw [hsz]
    rw [segLoop_step d la pa perm 2 0 s (by rw [e0l]; exact h0)]
    rw [e0l, e0p]
    rw [segLoop_step d la pa perm 1 1 _ (by rw [e1l, hp1]; exact h1)]
    rw [e1l, e1p, ht1]
    rw [segLoop_step d la pa perm 0 2 _ (by rw [hp2]; exact h2)]
    rw [ht2]
    rfl
  refine ⟨main, ?_, ?_⟩
  · unfold optFree
    rw [main, Option.map_some']
    rfl
  · rw [main, Option.map_some']
    rfl

/-- Witness for `C7_map_three_pages` on `W7`: three pages mapped at
`0x1000` from physical base `0x9000`; the free list (head `9`) is
untouched. -/
theorem C7_witness :
    page_map_segment W7 1 0x1000 (3 * PGSIZE) 0x9000 2 =
      some (setMemS (setMemS (setMemS W7
              (tblOf W7 1 0x1000) (PTX 0x1000) (0x9000 ||| 2 ||| PTE_P))
              (tblOf W7 1 (0x1000 + PGSIZE)) (PTX (0x1000 + PGSIZE))
              ((0x9000 + PGSIZE) ||| 2 ||| PTE_P))
              (tblOf W7 1 (0x1000 + 2 * PGSIZE)) (PTX (0x1000 + 2 * PGSIZE))
              ((0x9000 + 2 * PGSIZE) ||| 2 ||| PTE_P)) ∧
    optFree (page_map_segment W7 1 0x1000 (3 * PGSIZE) 0x9000 2) = some (some 9) ∧
    (page_map_segment W7 1 0x1000 (3 * PGSIZE) 0x9000 2).map MemState.pages = some W7.pages := by
  have h := C7_map_three_pages W7 1 0x1000 0x9000 2 (by decide) (by decide) (by decide)
    (by decide) (by decide) (by decide) (by decide) (by decide) (by decide)
  exact ⟨h.1, h.2.1, h.2.2⟩

/-! ## Remaining claim theorems -/

/-- C10: for every state, directory and address, `page_lookup` with a
null `pte_store` returns no page — even when a frame is mapped — and a
non-null `pte_store` is what yields the mapped frame (shown on `C10S`,
where frame `3` is mapped at `0x1000`). -/
theorem C10_null_pte_store_returns_none :
    (∀ (s : MemState) (pgdir va : Nat), (page_lookup s pgdir va false).1 = none) ∧
    (page_lookup C10S 1 0x1000 true).1 = some 3 ∧ C10S.mem 2 1 ≠ 0 := by
  refine ⟨fun s pgdir va => ?_, by decide, by decide⟩
  unfold page_lookup
  cases h : (pgdir_walk s pgdir va false).1 with
  | none => rfl
  | some pte => rfl

/-- C8 counterexample: `page_map_segment` called with a size of `1`
byte — not page-aligned — does not halt on a fatal assertion: it rounds
the size up and succeeds, refuting the claim that either misalignment is
fatal. -/
theorem C8_counterexample :
    1 % PGSIZE ≠ 0 ∧ (page_map_segment C7S 1 0 1 0 2).isSome = true := by
  decide

/-- C8 (amended): only the linear address's alignment is a fatal
precondition of `page_map_segment`; for every state and arguments, an
unaligned `la` yields the fatal-assertion result. -/
theorem C8_unaligned_la_is_fatal (s : MemState) (pgdir la size pa perm : Nat)
    (h : la % PGSIZE ≠ 0) :
    page_map_segment s pgdir la size pa perm = none := by
  simp [page_map_segment, h]

/-- Witness for `C8_unaligned_la_is_fatal` at `la = 5`. -/
theorem C8_witness :
    5 % PGSIZE ≠ 0 ∧ page_map_segment C7S 1 5 4096 0 2 = none :=
  ⟨by decide, C8_unaligned_la_is_fatal C7S 1 5 4096 0 2 (by decide)⟩

/-- C7 counterexample: bulk-mapping a 3-page range through
`page_map_segment` on a directory whose governing page table does not
yet exist consumes a frame from the free list (the table is allocated
via `pgdir_walk`'s create path), refuting "removes no frame from the
Free List" as a universal statement. -/
theorem C7_counterexample :
    C7S.free_pages = some 2 ∧
    optFree (page_map_segment C7S 1 0 (3 * PGSIZE) 0x5000 2) = some none := by
  decide

/-- C5: `page_map` reports success while the insertion failed for lack
of frames.  On `C5S` (one free frame, no page table for `0x1000`), the
frame allocation succeeds, `page_insert`'s create-walk then fails with
`-E_NO_MEM`, but `page_map` discards that result: it returns `0`, no
page is mapped at the address, and memory is exhausted (so a further
insertion attempt still fails). -/
theorem C5_page_map_swallows_nomem :
    (page_map C5S 1 0x1000 2).1 = 0 ∧
    (page_lookup (page_map C5S 1 0x1000 2).2 1 0x1000 true).1 = none ∧
    (page_map C5S 1 0x1000 2).2.free_pages = none ∧
    (page_insert (page_map C5S 1 0x1000 2).2 1 3 0x1000 2).isSome = false := by
  decide

/-- C6: re-inserting the frame already mapped at an address (to change
its permissions) performs no translation-cache invalidation: on `C6S`
frame `3` is mapped at `0x1000`, the re-insert succeeds and rewrites the
permission bits, yet the `invlpg` log stays empty — the only
invalidation in `page_insert` happens inside `page_remove`, which the
same-frame path never reaches. -/
theorem C6_same_frame_reinsert_skips_invalidate :
    C6S.mem 2 1 ≠ 0 ∧
    (page_lookup C6S 1 0x1000 true).1 = some 3 ∧
    optTlb (page_insert C6S 1 3 0x1000 6) = some [] ∧
    optMem (page_insert C6S 1 3 0x1000 6) 2 1 = some (3 * PGSIZE ||| 6 ||| PTE_P) := by
  decide

/-- C4 counterexample: with physical page `0` mapped at the address
(PTE `0x5`: present, `PTE_ADDR` zero — exactly what
`page_map_segment(.., pa = 0, ..)` installs for the kernel-base
mapping), inserting a different frame `3` succeeds and leaves exactly
the new mapping, but the old frame's reference count is *not*
decremented: `page_insert` only tears the old mapping down when
`PTE_ADDR(*pte) != 0`. -/
theorem C4_counterexample :
    (page_lookup C4S 1 0x1000 true).1 = some 0 ∧
    (C4S.pages 0).pp_ref = 5 ∧
    optRef (page_insert C4S 1 3 0x1000 2) 0 = some 5 ∧
    optRef (page_insert C4S 1 3 0x1000 2) 3 = some 1 ∧
    optLookup (page_insert C4S 1 3 0x1000 2) 1 0x1000 = some (some 3) := by
  decide

/-- C2: the `pp1 == pp0` branch of `alloc_free_page` violates the
free-list/refcount trichotomy.  On `C2S` the cursor's page translates to
the free-list head (frame `5`): the call succeeds, increments the
frame's reference count to `1` and nulls its link, but never advances
`free_pages` — afterwards frame `5` is simultaneously the free-list head
and referenced, and frames `4` and `3` are unreachable from the list
while still having `pp_ref = 0`. -/
theorem C2_alloc_free_page_head_case :
    C2S.free_pages = some 5 ∧ (C2S.pages 5).pp_ref = 0 ∧
    (alloc_free_page C2S 1 0x1000 5).map (fun r => r.2.free_pages) = some (some 5) ∧
    (alloc_free_page C2S 1 0x1000 5).map (fun r => (r.2.pages 5).pp_ref) = some 1 ∧
    (alloc_free_page C2S 1 0x1000 5).map (fun r => freeChain r.2 10 r.2.free_pages) = some [5] ∧
    (alloc_free_page C2S 1 0x1000 5).map (fun r => (r.2.pages 4).pp_ref) = some 0 ∧
    (alloc_free_page C2S 1 0x1000 5).map (fun r => decide (onFreeList r.2 10 4)) = some false := by
  decide

/-! `page_init` characterisation for the 640K/0-extended scenario
(`npages = 160`), stage by stage. -/

theorem iterFrom_succ (f : Nat → MemState → MemState) (i n : Nat) (s : MemState) :
    iterFrom f i (n + 1) s = f (i + n) (iterFrom f i n s) := by
  induction n generalizing i s with
  | zero => rfl
  | succ n ih =>
      show iterFrom f (i + 1) (n + 1) (f i s) = _
      rw [ih]
      have harg : i + 1 + n = i + (n + 1) := by omega
      rw [harg]
      rfl

theorem pageInitPush_pages (i : Nat) (s : MemState) (j : Nat) :
    (pageInitPush i s).pages j = if j = i then ⟨0, s.free_pages⟩ else s.pages j := by
  unfold pageInitPush
  dsimp only
  rw [setNextS_pages]
  by_cases h : j = i
  · subst h
    simp [setRefS_pages, setRefS_free]
  · rw [if_neg h, if_neg h, setRefS_pages, if_neg h]

@[simp] theorem pageInitPush_free (i : Nat) (s : MemState) :
    (pageInitPush i s).free_pages = some i := rfl

@[simp] theorem pageInitPush_mem (i : Nat) (s : MemState) :
    (pageInitPush i s).mem = s.mem := rfl

@[simp] theorem pageInitPush_tlb (i : Nat) (s : MemState) :
    (pageInitPush i s).tlb = s.tlb := rfl

theorem pageInitReserve_pages (i : Nat) (s : MemState) (j : Nat) :
    (pageInitReserve i s).pages j =
      if j = i then ⟨(s.pages i).pp_ref + 1, (s.pages i).pp_next⟩
      else if j = i + 1 then ⟨(s.pages (i + 1)).pp_ref, (s.pages i).pp_next⟩
      else s.pages j := by
  unfold pageInitReserve
  rw [increfS_pages]
  have hii : i ≠ i + 1 := by omega
  by_cases h : j = i
  · subst h
    rw [if_pos rfl, if_pos rfl]
    rw [setNextS_pages, if_neg hii]
  · rw [if_neg h, if_neg h, setNextS_pages]

@[simp] theorem pageInitReserve_free (i : Nat) (s : MemState) :
    (pageInitReserve i s).free_pages = s.free_pages := rfl

@[simp] theorem pageInitReserve_mem (i : Nat) (s : MemState) :
    (pageInitReserve i s).mem = s.mem := rfl

@[simp] theorem pageInitReserve_tlb (i : Nat) (s : MemState) :
    (pageInitReserve i s).tlb = s.tlb := rfl

theorem initStage1_char (n : Nat) :
    (initStage1 n).free_pages = (if n = 0 then none else some n) ∧
    (∀ j, 1 ≤ j → j ≤ n →
      (initStage1 n).pages j = ⟨0, if j = 1 then none else some (j - 1)⟩) ∧
    (∀ j, j = 0 ∨ n < j → (initStage1 n).pages j = ⟨0, none⟩) ∧
    (initStage1 n).mem = zeroMemState.mem ∧ (initStage1 n).tlb = [] := by
  induction n with
  | zero =>
      refine ⟨rfl, ?_, ?_, rfl, rfl⟩
      · intro j hj1 hj0
        omega
      · intro j _
        rfl
  | succ n ih =>
      obtain ⟨ihf, ihin, ihout, ihm, iht⟩ := ih
      have hstep : initStage1 (n + 1) = pageInitPush (1 + n) (initStage1 n) :=
        iterFrom_succ pageInitPush 1 n _
      have h1n : 1 + n = n + 1 := by omega
      rw [h1n] at hstep
      refine ⟨?_, ?_, ?_, ?_, ?_⟩
      · rw [hstep, pageInitPush_free]
        rw [if_neg (by omega)]
      · intro j hj1 hjn
        rw [hstep, pageInitPush_pages]
        by_cases hje : j = n + 1
        · rw [if_pos hje, ihf]
          by_cases hn0 : n = 0
          · rw [if_pos hn0, if_pos (by omega)]
          · rw [if_neg hn0, if_neg (by omega)]
            have : j - 1 = n := by omega
            rw [this]
        · rw [if_neg hje]
          exact ihin j hj1 (by omega)
      · intro j hj
        rw [hstep, pageInitPush_pages, if_neg (by omega)]
        exact ihout j (by omega)
      · rw [hstep, pageInitPush_mem]
        exact ihm
      · rw [hstep, pageInitPush_tlb]
        exact iht

theorem initStage2_char :
    initStage2.free_pages = some 159 ∧
    initStage2.pages 0 = ⟨1, none⟩ ∧
    (∀ j, 1 ≤ j → j ≤ 159 →
      initStage2.pages j = ⟨0, if j = 1 then none else some (j - 1)⟩) ∧
    (∀ j, 159 < j → initStage2.pages j = ⟨0, none⟩) ∧
    initStage2.mem = zeroMemState.mem ∧ initStage2.tlb = [] := by
  obtain ⟨hf, hin, hout, hm, ht⟩ := initStage1_char 159
  have hp0 : (initStage1 159).pages 0 = ⟨0, none⟩ := hout 0 (Or.inl rfl)
  unfold initStage2
  rw [hp0]
  refine ⟨rfl, ?_, ?_, ?_, ?_, ?_⟩
  · rw [increfS_pages, if_pos rfl, setNextS_pages, if_neg (by omega), hp0]
  · intro j hj1 hj159
    rw [increfS_pages, if_neg (by omega), setNextS_pages]
    by_cases hj : j = 1
    · rw [if_pos hj, hj]
      rw [hin 1 (by omega) (by omega)]
      rw [if_pos rfl]
    · rw [if_neg hj]
      exact hin j hj1 hj159
  · intro j hj
    rw [increfS_pages, if_neg (by omega), setNextS_pages, if_neg (by omega)]
    exact hout j (by omega)
  · rw [increfS_mem, setNextS_mem]
    exact hm
  · rw [increfS_tlb, setNextS_tlb]
    exact ht

theorem holeLoop_char (c : Nat) :
    (iterFrom pageInitReserve 160 c initStage2).free_pages = some 159 ∧
    (iterFrom pageInitReserve 160 c initStage2).pages 0 = ⟨1, none⟩ ∧
    (∀ j, 1 ≤ j → j ≤ 159 →
      (iterFrom pageInitReserve 160 c initStage2).pages j =
        ⟨0, if j = 1 then none else some (j - 1)⟩) ∧
    (∀ j, 160 ≤ j → j < 160 + c →
      (iterFrom pageInitReserve 160 c initStage2).pages j = ⟨1, none⟩) ∧
    (∀ j, 160 + c ≤ j →
      (iterFrom pageInitReserve 160 c initStage2).pages j = ⟨0, none⟩) ∧
    (iterFrom pageInitReserve 160 c initStage2).mem = zeroMemState.mem ∧
    (iterFrom pageInitReserve 160 c initStage2).tlb = [] := by
  induction c with
  | zero =>
      obtain ⟨hf, h0, hin, hout, hm, ht⟩ := initStage2_char
      exact ⟨hf, h0, hin, fun j hj1 hj2 => by omega,
        fun j hj => hout j (by omega), hm, ht⟩
  | succ c ih =>
      obtain ⟨ihf, ih0, ihin, ihmid, ihout, ihm, iht⟩ := ih
      have hstep : iterFrom pageInitReserve 160 (c + 1) initStage2 =
          pageInitReserve (160 + c) (iterFrom pageInitReserve 160 c initStage2) :=
        iterFrom_succ pageInitReserve 160 c _
      have hcur : (iterFrom pageInitReserve 160 c initStage2).pages (160 + c) = ⟨0, none⟩ :=
        ihout (160 + c) (by omega)
      have hnxt : (iterFrom pageInitReserve 160 c initStage2).pages (160 + c + 1) = ⟨0, none⟩ :=
        ihout (160 + c + 1) (by omega)
      refine ⟨?_, ?_, ?_, ?_, ?_, ?_, ?_⟩
      · rw [hstep, pageInitReserve_free]
        exact ihf
      · rw [hstep, pageInitReserve_pages, if_neg (by omega), if_neg (by omega)]
        exact ih0
      · intro j hj1 hj159
        rw [hstep, pageInitReserve_pages, if_neg (by omega), if_neg (by omega)]
        exact ihin j hj1 hj159
      · intro j hj1 hj2
        rw [hstep, pageInitReserve_pages]
        by_cases hje : j = 160 + c
        · rw [if_pos hje, hcur]
        · rw [if_neg hje, if_neg (by omega)]
          exact ihmid j hj1 (by omega)
      · intro j hj
        rw [hstep, pageInitReserve_pages, if_neg (by omega)]
        by_cases hje : j = 160 + c + 1
        · rw [if_pos hje, hnxt, hcur]
        · rw [if_neg hje]
          exact ihout j (by omega)
      · rw [hstep, pageInitReserve_mem]
        exact ihm
      · rw [hstep, pageInitReserve_tlb]
        exact iht

theorem extLoop_char (m : Nat) :
    (iterFrom pageInitReserve 256 m initStage3).free_pages = some 159 ∧
    (iterFrom pageInitReserve 256 m initStage3).pages 0 = ⟨1, none⟩ ∧
    (∀ j, 1 ≤ j → j ≤ 159 →
      (iterFrom pageInitReserve 256 m initStage3).pages j =
        ⟨0, if j = 1 then none else some (j - 1)⟩) ∧
    (∀ j, 160 ≤ j → j < 256 →
      (iterFrom pageInitReserve 256 m initStage3).pages j = ⟨1, none⟩) ∧
    (∀ j, 256 ≤ j → j < 256 + m →
      (iterFrom pageInitReserve 256 m initStage3).pages j = ⟨1, none⟩) ∧
    (∀ j, 256 + m ≤ j →
      (iterFrom pageInitReserve 256 m initStage3).pages j = ⟨0, none⟩) ∧
    (iterFrom pageInitReserve 256 m initStage3).mem = zeroMemState.mem ∧
    (iterFrom pageInitReserve 256 m initStage3).tlb = [] := by
  induction m with
  | zero =>
      obtain ⟨hf, h0, hin, hmid, hout, hm, ht⟩ := holeLoop_char 96
      exact ⟨hf, h0, hin, fun j hj1 hj2 => hmid j hj1 (by omega),
        fun j hj1 hj2 => by omega, fun j hj => hout j (by omega), hm, ht⟩
  | succ m ih =>
      obtain ⟨ihf, ih0, ihin, ihhole, ihmid, ihout, ihm, iht⟩ := ih
      have hstep : iterFrom pageInitReserve 256 (m + 1) initStage3 =
          pageInitReserve (256 + m) (iterFrom pageInitReserve 256 m initStage3) :=
        iterFrom_succ pageInitReserve 256 m _
      have hcur : (iterFrom pageInitReserve 256 m initStage3).pages (256 + m) = ⟨0, none⟩ :=
        ihout (256 + m) (by omega)
      have hnxt : (iterFrom pageInitReserve 256 m initStage3).pages (256 + m + 1) = ⟨0, none⟩ :=
        ihout (256 + m + 1) (by omega)
      refine ⟨?_, ?_, ?_, ?_, ?_, ?_, ?_, ?_⟩
      · rw [hstep, pageInitReserve_free]
        exact ihf
      · rw [hstep, pageInitReserve_pages, if_neg (by omega), if_neg (by omega)]
        exact ih0
      · intro j hj1 hj159
        rw [hstep, pageInitReserve_pages, if_neg (by omega), if_neg (by omega)]
        exact ihin j hj1 hj159
      · intro j hj1 hj2
        rw [hstep, pageInitReserve_pages, if_neg (by omega), if_neg (by omega)]
        exact ihhole j hj1 hj2
      · intro j hj1 hj2
        rw [hstep, pageInitReserve_pages]
        by_cases hje : j = 256 + m
        · rw [if_pos hje, hcur]
        · rw [if_neg hje, if_neg (by omega)]
          exact ihmid j hj1 (by omega)
      · intro j hj
        rw [hstep, pageInitReserve_pages, if_neg (by omega)]
        by_cases hje : j = 256 + m + 1
        · rw [if_pos hje, hnxt, hcur]
        · rw [if_neg hje]
          exact ihout j (by omega)
      · rw [hstep, pageInitReserve_mem]
        exact ihm
      · rw [hstep, pageInitReserve_tlb]
        exact iht

set_option maxRecDepth 10000 in
/-- `page_init 160 frontier` on the zeroed registry is exactly the
staged computation (the loop bounds `159`, `160 .. 255` and
`256 .. frontier-1` are the literal values of `npages - 1`,
`IOPHYSMEM/PGSIZE`, `EXTPHYSMEM/PGSIZE` for this configuration). -/
theorem page_init_160 (frontier : Nat) :
    page_init 160 frontier zeroMemState =
      iterFrom pageInitReserve 256 (frontier - 256) initStage3 := rfl

theorem freeChain_none (s : MemState) (fuel : Nat) : freeChain s fuel none = [] := by
  cases fuel <;> rfl

/-- Walking a descending free list `k → k-1 → ... → 1` visits exactly
the frames `1 .. k`. -/
theorem freeChain_desc (s : MemState) :
    ∀ k fuel, 1 ≤ k → k ≤ fuel →
      (∀ j, 2 ≤ j → j ≤ k → (s.pages j).pp_next = some (j - 1)) →
      (s.pages 1).pp_next = none →
      ∀ i, i ∈ freeChain s fuel (some k) ↔ 1 ≤ i ∧ i ≤ k := by
  intro k
  induction k with
  | zero => intro fuel h1 _ _ _ _; omega
  | succ k ih =>
      intro fuel h1 hfuel hnext h1n i
      obtain ⟨fuel', rfl⟩ : ∃ fuel', fuel = fuel' + 1 := ⟨fuel - 1, by omega⟩
      show i ∈ (k + 1) :: freeChain s fuel' (s.pages (k + 1)).pp_next ↔ _
      by_cases hk : k = 0
      · subst hk
        rw [h1n, freeChain_none]
        simp only [List.mem_singleton, List.not_mem_nil, or_false]
        omega
      · rw [hnext (k + 1) (by omega) (by omega)]
        have hsub : k + 1 - 1 = k := by omega
        rw [hsub]
        rw [List.mem_cons]
        rw [ih fuel' (by omega) (by omega)
          (fun j hj2 hjk => hnext j hj2 (by omega)) h1n i]
        omega

/-- C9: with CMOS reporting 640K base and 0 extended memory,
`i386_mem_detect` makes the total frame count equal the base page count
(`160`); and after `page_init` (whatever the `boot_alloc` frontier is):
frame `0` is reserved — nonzero reference count, not on the free list;
every frame of the low I/O hole range `[IOPHYSMEM/PGSIZE,
EXTPHYSMEM/PGSIZE) = [160, 256)` is likewise reserved; and every
remaining frame `1 .. 159` sits on the free list with `pp_ref = 0`. -/
theorem C9_zero_extended_page_init (frontier : Nat) :
    (i386_mem_detect 640 0).1 = (i386_mem_detect 640 0).2 ∧
    (i386_mem_detect 640 0).1 = 160 ∧
    (1 ≤ ((page_init 160 frontier zeroMemState).pages 0).pp_ref ∧
      ¬ onFreeList (page_init 160 frontier zeroMemState) 160 0) ∧
    (∀ i, 160 ≤ i → i < 256 →
      1 ≤ ((page_init 160 frontier zeroMemState).pages i).pp_ref ∧
      ¬ onFreeList (page_init 160 frontier zeroMemState) 160 i) ∧
    (∀ i, 1 ≤ i → i < 160 →
      ((page_init 160 frontier zeroMemState).pages i).pp_ref = 0 ∧
      onFreeList (page_init 160 frontier zeroMemState) 160 i) := by
  obtain ⟨hf, h0, hin, hhole, hmid, hout, hm, ht⟩ := extLoop_char (frontier - 256)
  rw [page_init_160 frontier]
  have hnext : ∀ j, 2 ≤ j → j ≤ 159 →
      ((iterFrom pageInitReserve 256 (frontier - 256) initStage3).pages j).pp_next =
        some (j - 1) := by
    intro j hj2 hj159
    rw [hin j (by omega) hj159]
    rw [if_neg (by omega)]
  have h1n : ((iterFrom pageInitReserve 256 (frontier - 256) initStage3).pages 1).pp_next =
      none := by
    rw [hin 1 (by omega) (by omega)]
    rfl
  have hchain := freeChain_desc (iterFrom pageInitReserve 256 (frontier - 256) initStage3)
    159 160 (by omega) (by omega) hnext h1n
  refine ⟨by decide, by decide, ⟨?_, ?_⟩, ?_, ?_⟩
  · rw [h0]
  · unfold onFreeList
    rw [hf, hchain 0]
    omega
  · intro i hi1 hi2
    refine ⟨?_, ?_⟩
    · rw [hhole i hi1 hi2]
    · unfold onFreeList
      rw [hf, hchain i]
      omega
  · intro i hi1 hi2
    refine ⟨?_, ?_⟩
    · rw [hin i hi1 (by omega)]
    · unfold onFreeList
      rw [hf, hchain i]
      omega

/-- Witness for `C9_zero_extended_page_init` at `frontier = 260`,
I/O-hole frame `200` (reserved) and low frame `42` (free). -/
theorem C9_witness :
    (i386_mem_detect 640 0).1 = 160 ∧
    (160 ≤ 200 ∧ 200 < 256) ∧
    1 ≤ ((page_init 160 260 zeroMemState).pages 200).pp_ref ∧
    ¬ onFreeList (page_init 160 260 zeroMemState) 160 200 ∧
    (1 ≤ 42 ∧ 42 < 160) ∧
    ((page_init 160 260 zeroMemState).pages 42).pp_ref = 0 ∧
    onFreeList (page_init 160 260 zeroMemState) 160 42 := by
  have h := C9_zero_extended_page_init 260
  have h1 := h.2.2.2.1 200 (by omega) (by omega)
  have h2 := h.2.2.2.2 42 (by omega) (by omega)
  exact ⟨h.2.1, ⟨by omega, by omega⟩, h1.1, h1.2, ⟨by omega, by omega⟩, h2.1, h2.2⟩

end Pmap
